import Mathlib

/-!
Verification of the ssl-checker pipeline (src/index.ts).

The program is embedded shallowly:
* instants are integers (milliseconds since the Unix epoch), as returned by
  `Date.now()` / `Date.getTime()`;
* `Math.round` on the exact real value is modelled over `ℚ` (the millisecond
  quantities involved are far below the range where IEEE doubles lose
  integer precision);
* the external TLS stack (`tls.connect` plus reading the peer certificate's
  `valid_to` field) is a parameter `net : String → ℤ → NetResult` giving, for a
  hostname and port, either the certificate expiry instant or an error message;
* the external relative-time formatter (`moment(expireAt).fromNow()`) is a
  parameter `fromNow : ℤ → String`;
* promise rejection is `Except String`; `Promise.all` rejects when any
  element rejects.
-/

deriving instance DecidableEq for Except

namespace SSLChecker

/-- `const MIN = 60 * 1000` (src/index.ts line 73). -/
def MIN : ℤ := 60 * 1000

/-- `const HOUR = MIN * 60` (src/index.ts line 74). -/
def HOUR : ℤ := MIN * 60

/-- `const DAY = HOUR * 24` (src/index.ts line 75). -/
def DAY : ℤ := HOUR * 24

/-- JavaScript `Math.round`: the nearest integer, half-way cases rounded
toward positive infinity, i.e. `⌊x + 1/2⌋`. -/
def jsRound (q : ℚ) : ℤ := ⌊q + 1/2⌋

/-- `const diff = Math.round((expireAt - now) / DAY)` (src/index.ts line 113). -/
def daysUntil (expireAt now : ℤ) : ℤ := jsRound (((expireAt - now : ℤ) : ℚ) / (DAY : ℚ))

/-- Urgency tier of a classified host (spec names; the branch structure is the
`if diff < 0 / else if diff < 30 / else` chain of `checkAll`, lines 114-121). -/
inductive Tier
  | EXPIRED
  | URGENT_OR_SOON
  | OK
deriving DecidableEq, Repr

/-- Tier assigned by the branch structure of the loop body of `checkAll`. -/
def tierOf (diff : ℤ) : Tier :=
  if diff < 0 then Tier.EXPIRED
  else if diff < 30 then Tier.URGENT_OR_SOON
  else Tier.OK

/-- The fixed display text pushed for an expired host
(line 116: `'<span style="color: red;">已过期！</span>'`). -/
def expiredText : String := "<span style=\"color: red;\">已过期！</span>"

/-- The loop body of `checkAll` (lines 113-121): the content entry pushed for
one `[host, expireAt]` item, or `none` when the item is not reportable.
`fromNow expireAt` stands for `moment(expireAt).fromNow()`. -/
def contentEntry (fromNow : ℤ → String) (now : ℤ) (host : String) (expireAt : ℤ) :
    Option (String × String) :=
  let diff := daysUntil expireAt now
  if diff < 0 then some (host, expiredText)
  else if diff < 30 then some (host, fromNow expireAt ++ "过期")
  else none

/-- The `content` array accumulated by the `for` loop of `checkAll`
(lines 112-122), as a function of the (sorted) items list. -/
def buildContent (fromNow : ℤ → String) (now : ℤ) : List (String × ℤ) → List (String × String)
  | [] => []
  | it :: rest =>
    match contentEntry fromNow now it.1 it.2 with
    | some e => e :: buildContent fromNow now rest
    | none => buildContent fromNow now rest

/-- The `needNotify` flag accumulated by the `for` loop of `checkAll`
(line 111 and line 121: `needNotify = needNotify || diff <= 14`). -/
def needNotifyOf (now : ℤ) : List (String × ℤ) → Bool
  | [] => false
  | it :: rest => decide (daysUntil it.2 now ≤ 14) || needNotifyOf now rest

/-! ## Host string parsing (`tslConnect`, lines 10-22) -/

/-- JavaScript `String.prototype.split(sep)` for a one-character separator:
the groups of characters between the occurrences of `sep` (a string without
the separator yields one group; `n` separators yield `n + 1` groups, empty
groups included). -/
def splitOnChar (sep : Char) : List Char → List (List Char)
  | [] => [[]]
  | c :: rest =>
    if c = sep then [] :: splitOnChar sep rest
    else
      match splitOnChar sep rest with
      | [] => [[c]]
      | g :: gs => (c :: g) :: gs

/-- `host.split(':')` (line 13). -/
def splitOnColon : List Char → List (List Char) := splitOnChar ':'

/-- JavaScript whitespace skipped by `parseInt`. -/
def isJsSpace (c : Char) : Bool := c = ' ' || c = '\t' || c = '\n' || c = '\r'

/-- Value of a base-10 digit, `none` for any other character. -/
def decDigit (c : Char) : Option ℕ :=
  if c.isDigit then some (c.toNat - 48) else none

/-- Value of a base-16 digit, `none` for any other character. -/
def hexDigit (c : Char) : Option ℕ :=
  if c.isDigit then some (c.toNat - 48)
  else if ('a' ≤ c) ∧ c ≤ 'f' then some (c.toNat - 87)
  else if ('A' ≤ c) ∧ c ≤ 'F' then some (c.toNat - 55)
  else none

/-- Longest prefix of digits of the given radix, interpreted as a number;
`none` when there is no leading digit. -/
def digitsValue (digit : Char → Option ℕ) (radix : ℕ) (cs : List Char) : Option ℕ :=
  let ds := cs.takeWhile (fun c => (digit c).isSome)
  if ds = [] then none
  else some (ds.foldl (fun acc c => acc * radix + (digit c).getD 0) 0)

/-- Optional leading sign of a JavaScript `parseInt` argument. -/
def jsSign : List Char → ℤ × List Char
  | '-' :: rest => (-1, rest)
  | '+' :: rest => (1, rest)
  | cs => (1, cs)

/-- JavaScript `parseInt(s)` with the radix argument undefined: skip leading
whitespace, take an optional sign, detect a `0x`/`0X` hex prefix (radix 16,
otherwise radix 10), then read the longest prefix of digits — trailing
non-digit characters are ignored; `none` is `NaN`. -/
def jsParseInt (cs : List Char) : Option ℤ :=
  let s := jsSign (cs.dropWhile isJsSpace)
  match s.2 with
  | '0' :: x :: rest =>
    if x = 'x' ∨ x = 'X' then (digitsValue hexDigit 16 rest).map (fun n => s.1 * n)
    else (digitsValue decDigit 10 s.2).map (fun n => s.1 * n)
  | _ => (digitsValue decDigit 10 s.2).map (fun n => s.1 * n)

/-- The host[:port] parsing prologue of `tslConnect` (lines 11-22):
no `':'` keeps the raw string with default port 443; with `':'` present the
string is split on `':'`, a split into anything but two parts throws
`invalid host: <raw>`, and a port that `parseInt`s to `NaN` throws
`invalid host: <hostname>` (the variable `host` was reassigned to the
hostname part before that throw). -/
def hostPort (raw : String) : Except String (String × ℤ) :=
  if raw.toList.contains ':' then
    let hostAndPort := splitOnColon raw.toList
    if hostAndPort.length = 2 then
      match jsParseInt (hostAndPort.getD 1 []) with
      | none => Except.error ("invalid host: " ++ (hostAndPort.getD 0 []).asString)
      | some p => Except.ok ((hostAndPort.getD 0 []).asString, p)
    else Except.error ("invalid host: " ++ raw)
  else Except.ok (raw, 443)

/-! ## The probe (`tslConnect` / `getExpireTime`, lines 10-45) -/

/-- Behaviour of the external TLS stack on one connection attempt: either the
peer certificate's `valid_to` instant (`new Date(cert.valid_to).getTime()`),
or a connection/handshake error with its message. -/
inductive NetResult
  | ok (validTo : ℤ)
  | err (msg : String)
deriving DecidableEq, Repr

/-- `tslConnect` (lines 10-29): parse the host string, then connect; the
external stack `net` receives the hostname and port and either yields the
peer certificate data or rejects with an error message. -/
def tslConnect (net : String → ℤ → NetResult) (host : String) : Except String ℤ :=
  match hostPort host with
  | Except.error m => Except.error m
  | Except.ok hp =>
    match net hp.1 hp.2 with
    | NetResult.ok t => Except.ok t
    | NetResult.err m => Except.error m

/-- `getExpireTime` (lines 31-45): the certificate expiry instant; a failure
whose message is exactly `certificate has expired` is converted to the epoch
sentinel `0`, every other failure is re-thrown. -/
def getExpireTime (net : String → ℤ → NetResult) (host : String) : Except String ℤ :=
  match tslConnect net host with
  | Except.ok t => Except.ok t
  | Except.error m =>
    if m = "certificate has expired" then Except.ok 0 else Except.error m

/-! ## The batch run (`checkAll`, lines 103-127) -/

/-- The comparison used by `items.sort((a, b) => a[1] - b[1])`:
ascending by expiry instant. -/
def byExpiry (a b : String × ℤ) : Prop := a.2 ≤ b.2

instance : DecidableRel byExpiry := fun a b => inferInstanceAs (Decidable (a.2 ≤ b.2))

instance : IsTotal (String × ℤ) byExpiry := ⟨fun a b => le_total a.2 b.2⟩

instance : IsTrans (String × ℤ) byExpiry := ⟨fun _ _ _ h h' => le_trans h h'⟩

/-- `items.sort((a, b) => a[1] - b[1])` (line 110): JavaScript `Array.sort`
with a numeric comparator is a stable ascending sort, modelled as insertion
sort by expiry instant. -/
def sortItems (items : List (String × ℤ)) : List (String × ℤ) :=
  items.insertionSort byExpiry

/-- The email handed to `sendMailToMe(subject, html)`. -/
structure EmailMsg where
  subject : String
  html : String
deriving DecidableEq, Repr

/-- `convertToHTMLList` (lines 64-71): `"<ul>"`, then one
`<li><strong>host</strong>: text</li>` per entry, then `"</ul>"`. -/
def convertToHTMLList (list : List (String × String)) : String :=
  (list.foldl
    (fun htmlString item =>
      htmlString ++ "<li><strong>" ++ item.1 ++ "</strong>: " ++ item.2 ++ "</li>")
    "<ul>") ++ "</ul>"

/-- The tail of `checkAll` after all probes resolved (lines 110-127): sort the
items, accumulate `content` and `needNotify` over the sorted list, and send
the email exactly when `needNotify` holds. -/
def runItems (fromNow : ℤ → String) (now : ℤ) (items : List (String × ℤ)) : Option EmailMsg :=
  let sorted := sortItems items
  let content := buildContent fromNow now sorted
  if needNotifyOf now sorted then
    some ⟨"[" ++ toString content.length ++ "🚨] SSL 证书到期检测", convertToHTMLList content⟩
  else none

/-- The fan-out of `checkAll` (lines 106-109):
`Promise.all(hosts.map(async host => [host, await getExpireTime(host)]))` —
every host is probed, and the batch rejects when any probe rejects. -/
def probeAll (net : String → ℤ → NetResult) : List String → Except String (List (String × ℤ))
  | [] => Except.ok []
  | host :: rest =>
    match getExpireTime net host with
    | Except.error m => Except.error m
    | Except.ok t =>
      match probeAll net rest with
      | Except.error m => Except.error m
      | Except.ok items => Except.ok ((host, t) :: items)

/-- `checkAll` (lines 103-127): probe every configured host, then sort,
classify, and send the report email when notification is needed. The result
is `Except.error` when the run rejects, `Except.ok none` when it completes
without sending, and `Except.ok (some email)` when it sends `email`. -/
def checkAll (net : String → ℤ → NetResult) (fromNow : ℤ → String)
    (hosts : List String) (now : ℤ) : Except String (Option EmailMsg) :=
  match probeAll net hosts with
  | Except.error m => Except.error m
  | Except.ok items => Except.ok (runItems fromNow now items)

/-! ## Scheduling (`main`, lines 129-142) -/

/-- The scheduling decision taken by `main`: run the pipeline once now, or
install a cron trigger with the given cron expression and timezone. -/
inductive SchedMode
  | runNow
  | cron (cronTime : String) (timeZone : String)
deriving DecidableEq, Repr

/-- `main` (lines 129-142): `process.env['RUN'] === '1'` selects an immediate
single run, anything else installs
`CronJob.from({cronTime: '0 10 * * *', ..., timeZone: 'Asia/Shanghai'})`. -/
def main (runEnv : Option String) : SchedMode :=
  if runEnv = some "1" then SchedMode.runNow
  else SchedMode.cron "0 10 * * *" "Asia/Shanghai"

/-- A wall-clock instant in the trigger's timezone, as the five cron-relevant
fields: minute, hour, day of month, month, day of week. -/
structure WallTime where
  minute : ℕ
  hour : ℕ
  dayOfMonth : ℕ
  month : ℕ
  dayOfWeek : ℕ
deriving DecidableEq, Repr

/-- The number denoted by a nonempty all-digit string, else `none`. -/
def digitsNat (cs : List Char) : Option ℕ :=
  if cs ≠ [] ∧ cs.all (fun c => (decDigit c).isSome) then
    some (cs.foldl (fun acc c => acc * 10 + (decDigit c).getD 0) 0)
  else none

/-- Modelled from the spec: one field of the external `CronJob` trigger
matches a value when it is `*` or that exact number (the expression installed
here uses no ranges, steps or lists). -/
def cronFieldMatches (field : List Char) (v : ℕ) : Bool :=
  field = ['*'] || digitsNat field = some v

/-- Modelled from the spec: the external `CronJob` trigger fires at a
wall-clock instant in its timezone exactly when all five space-separated
fields of the cron expression match. -/
def cronFires (cronTime : String) (t : WallTime) : Bool :=
  match splitOnChar ' ' cronTime.toList with
  | [mi, h, dom, mon, dw] =>
    cronFieldMatches mi t.minute && cronFieldMatches h t.hour &&
    cronFieldMatches dom t.dayOfMonth && cronFieldMatches mon t.month &&
    cronFieldMatches dw t.dayOfWeek
  | _ => false

/-! ## Spec-side comparison definitions -/

/-- The spec's "ties away from zero" rounding (taken from the spec's words,
for comparison with `jsRound`). -/
def specRoundAway (q : ℚ) : ℤ := if 0 ≤ q then ⌊q + 1/2⌋ else -⌊-q + 1/2⌋

/-- The spec's "ties to even" rounding (taken from the spec's words, for
comparison with `jsRound`): at a half-way tie, the even neighbour. -/
def specRoundEven (q : ℚ) : ℤ :=
  if (q + 1/2 : ℚ) = ((⌊q + 1/2⌋ : ℤ) : ℚ) then
    if 2 ∣ ⌊q⌋ then ⌊q⌋ else ⌊q⌋ + 1
  else ⌊q + 1/2⌋

/-- The spec's notion of a string that "parses as a base-10 integer" (taken
from the spec's words, for comparison with `jsParseInt`): an optional sign
followed by a nonempty run of decimal digits and nothing else. -/
def isBase10Int (cs : List Char) : Bool :=
  match cs with
  | '-' :: rest => rest ≠ [] && rest.all Char.isDigit
  | '+' :: rest => rest ≠ [] && rest.all Char.isDigit
  | _ => cs ≠ [] && cs.all Char.isDigit

/-! ## Helper lemmas -/

lemma daysUntil_lt_iff (e now k : ℤ) :
    daysUntil e now < k ↔ ((e : ℚ) - now) / (DAY : ℚ) + 1/2 < k := by
  have hq : ((e - now : ℤ) : ℚ) = (e : ℚ) - (now : ℚ) := by push_cast; ring
  simp only [daysUntil, jsRound, hq]
  rw [Int.floor_lt]

lemma daysUntil_le_iff (e now k : ℤ) :
    daysUntil e now ≤ k ↔ ((e : ℚ) - now) / (DAY : ℚ) + 1/2 < k + 1 := by
  have hq : ((e - now : ℤ) : ℚ) = (e : ℚ) - (now : ℚ) := by push_cast; ring
  simp only [daysUntil, jsRound, hq]
  rw [Int.floor_le_iff]

lemma buildContent_eq_filterMap (fromNow : ℤ → String) (now : ℤ) (items : List (String × ℤ)) :
    buildContent fromNow now items =
      items.filterMap (fun it => contentEntry fromNow now it.1 it.2) := by
  induction items with
  | nil => rfl
  | cons a rest ih =>
    cases hce : contentEntry fromNow now a.1 a.2 <;>
      simp [buildContent, List.filterMap_cons, hce, ih]

lemma needNotifyOf_iff (now : ℤ) (items : List (String × ℤ)) :
    needNotifyOf now items = true ↔ ∃ it ∈ items, daysUntil it.2 now ≤ 14 := by
  induction items with
  | nil => simp [needNotifyOf]
  | cons a rest ih => simp [needNotifyOf, ih]

lemma contentEntry_of_neg (fromNow : ℤ → String) (now : ℤ) (host : String) (e : ℤ)
    (h : daysUntil e now < 0) :
    contentEntry fromNow now host e = some (host, expiredText) := by
  simp [contentEntry, h]

lemma contentEntry_of_soon (fromNow : ℤ → String) (now : ℤ) (host : String) (e : ℤ)
    (h0 : 0 ≤ daysUntil e now) (h30 : daysUntil e now < 30) :
    contentEntry fromNow now host e = some (host, fromNow e ++ "过期") := by
  simp [contentEntry, not_lt.mpr h0, h30]

lemma join_cons (x : String) (l : List String) : String.join (x :: l) = x ++ String.join l := by
  simp [String.join_eq]
  rfl

lemma join_nil : String.join [] = "" := rfl

lemma foldl_li (l : List (String × String)) : ∀ acc : String,
    l.foldl (fun s item => s ++ "<li><strong>" ++ item.1 ++ "</strong>: " ++ item.2 ++ "</li>")
        acc
      = acc ++ String.join (l.map
          (fun item => "<li><strong>" ++ item.1 ++ "</strong>: " ++ item.2 ++ "</li>")) := by
  induction l with
  | nil => intro acc; simp [join_nil]
  | cons a rest ih =>
    intro acc
    simp only [List.foldl_cons, List.map_cons, join_cons, ih]
    simp [String.append_assoc]

lemma convertToHTMLList_join (l : List (String × String)) :
    convertToHTMLList l = "<ul>" ++ String.join (l.map
      (fun item => "<li><strong>" ++ item.1 ++ "</strong>: " ++ item.2 ++ "</li>")) ++ "</ul>" := by
  simp [convertToHTMLList, foldl_li]

lemma splitOnChar_ne_nil (sep : Char) : ∀ cs, splitOnChar sep cs ≠ []
  | [] => by simp [splitOnChar]
  | c :: rest => by
    by_cases h : c = sep
    · simp [splitOnChar, h]
    · cases hs : splitOnChar sep rest <;> simp [splitOnChar, h, hs]

lemma splitOnChar_length (sep : Char) : ∀ cs, (splitOnChar sep cs).length = cs.count sep + 1
  | [] => by simp [splitOnChar]
  | c :: rest => by
    have ih := splitOnChar_length sep rest
    by_cases h : c = sep
    · simp [splitOnChar, h, List.count_cons, ih]
    · cases hs : splitOnChar sep rest with
      | nil => exact absurd hs (splitOnChar_ne_nil sep rest)
      | cons g gs =>
        rw [hs] at ih
        simp only [List.length_cons] at ih
        simp [splitOnChar, h, hs, List.count_cons, ih]

lemma probeAll_error (net : String → ℤ → NetResult) (m : String) :
    ∀ (hosts : List String) (x : String), x ∈ hosts →
      getExpireTime net x = Except.error m →
      ∃ m2, probeAll net hosts = Except.error m2
  | [], x, hx, _ => absurd hx (List.not_mem_nil x)
  | a :: rest, x, hx, hm => by
    rcases List.mem_cons.mp hx with rfl | hx2
    · exact ⟨m, by simp [probeAll, hm]⟩
    · cases hg : getExpireTime net a with
      | error m3 => exact ⟨m3, by simp [probeAll, hg]⟩
      | ok t =>
        obtain ⟨m2, hp⟩ := probeAll_error net m rest x hx2 hm
        exact ⟨m2, by simp [probeAll, hg, hp]⟩

lemma mem_buildContent (fromNow : ℤ → String) (now : ℤ) (items : List (String × ℤ))
    (it : String × ℤ) (hmem : it ∈ items) (hd : daysUntil it.2 now < 30) :
    ∃ txt, (it.1, txt) ∈ buildContent fromNow now items := by
  rw [buildContent_eq_filterMap]
  by_cases hneg : daysUntil it.2 now < 0
  · exact ⟨expiredText, List.mem_filterMap.mpr
      ⟨it, hmem, contentEntry_of_neg fromNow now it.1 it.2 hneg⟩⟩
  · exact ⟨fromNow it.2 ++ "过期", List.mem_filterMap.mpr
      ⟨it, hmem, contentEntry_of_soon fromNow now it.1 it.2 (not_lt.mp hneg) hd⟩⟩

/-! ## The claims -/

/-- C1: For every host whose probe yields expiry instant `e` and reference
instant `now`, with `daysUntilExpiry = round((e - now) / 1 day)`: if
`daysUntilExpiry < 0` the host is classified `EXPIRED` and its display text is
the fixed "already expired" marker; if `0 ≤ daysUntilExpiry < 30` it is
classified `URGENT_OR_SOON` with a relative-time phrase rendered from `e`;
if `daysUntilExpiry ≥ 30` it is classified `OK` and excluded from the
report. -/
theorem spec_c1 (fromNow : ℤ → String) (now e : ℤ) (host : String) :
    (daysUntil e now < 0 →
      tierOf (daysUntil e now) = Tier.EXPIRED ∧
      contentEntry fromNow now host e = some (host, expiredText)) ∧
    (0 ≤ daysUntil e now → daysUntil e now < 30 →
      tierOf (daysUntil e now) = Tier.URGENT_OR_SOON ∧
      contentEntry fromNow now host e = some (host, fromNow e ++ "过期")) ∧
    (30 ≤ daysUntil e now →
      tierOf (daysUntil e now) = Tier.OK ∧
      contentEntry fromNow now host e = none) := by
  refine ⟨fun h => ?_, fun h0 h30 => ?_, fun h => ?_⟩
  · exact ⟨by simp [tierOf, h], contentEntry_of_neg fromNow now host e h⟩
  · exact ⟨by simp [tierOf, not_lt.mpr h0, h30],
      contentEntry_of_soon fromNow now host e h0 h30⟩
  · have h1 : ¬ daysUntil e now < 0 := by omega
    have h2 : ¬ daysUntil e now < 30 := by omega
    exact ⟨by simp [tierOf, h1, h2], by simp [contentEntry, h1, h2]⟩

/-- Witness for C1 at concrete inputs: `now = 0` with expiry one day in the
past (`EXPIRED`), five days ahead (`URGENT_OR_SOON`), forty days ahead
(`OK`). -/
theorem spec_c1_witness :
    (tierOf (daysUntil (-86400000) 0) = Tier.EXPIRED ∧
      contentEntry (fun _ => "soon") 0 "h" (-86400000) = some ("h", expiredText)) ∧
    (tierOf (daysUntil 432000000 0) = Tier.URGENT_OR_SOON ∧
      contentEntry (fun _ => "soon") 0 "h" 432000000 = some ("h", "soon" ++ "过期")) ∧
    (tierOf (daysUntil 3456000000 0) = Tier.OK ∧
      contentEntry (fun _ => "soon") 0 "h" 3456000000 = none) := by
  have d1 : daysUntil (-86400000) 0 = -1 := by
    norm_num [daysUntil, jsRound, DAY, HOUR, MIN]
  have d2 : daysUntil 432000000 0 = 5 := by
    norm_num [daysUntil, jsRound, DAY, HOUR, MIN]
  have d3 : daysUntil 3456000000 0 = 40 := by
    norm_num [daysUntil, jsRound, DAY, HOUR, MIN]
  exact ⟨(spec_c1 (fun _ => "soon") 0 (-86400000) "h").1 (by rw [d1]; norm_num),
    (spec_c1 (fun _ => "soon") 0 432000000 "h").2.1
      (by rw [d2]; norm_num) (by rw [d2]; norm_num),
    (spec_c1 (fun _ => "soon") 0 3456000000 "h").2.2 (by rw [d3]; norm_num)⟩

/-- C2: The batch-level `needNotify` flag is the logical OR over hosts of
`daysUntilExpiry ≤ 14`; every host contributing `true` is also in the
reportable sequence, while a host with `14 < daysUntilExpiry < 30` is
reportable without contributing `true`. -/
theorem spec_c2 (fromNow : ℤ → String) (now : ℤ) (items : List (String × ℤ)) :
    (needNotifyOf now items = true ↔ ∃ it ∈ items, daysUntil it.2 now ≤ 14) ∧
    (∀ it ∈ items, daysUntil it.2 now ≤ 14 →
      ∃ txt, (it.1, txt) ∈ buildContent fromNow now items) ∧
    (∀ it ∈ items, 14 < daysUntil it.2 now → daysUntil it.2 now < 30 →
      (∃ txt, (it.1, txt) ∈ buildContent fromNow now items) ∧
      ¬ daysUntil it.2 now ≤ 14) := by
  refine ⟨needNotifyOf_iff now items, fun it hmem h14 => ?_, fun it hmem h14 h30 => ?_⟩
  · exact mem_buildContent fromNow now items it hmem (by omega)
  · exact ⟨mem_buildContent fromNow now items it hmem h30, by omega⟩

/-- Witness for C2 at a concrete run: `now = 0`, one host expiring in 5 days
(contributes and is reported) and one in 20 days (reported, does not
contribute). -/
theorem spec_c2_witness :
    (needNotifyOf 0 [("a", 432000000), ("b", 1728000000)] = true ↔
      ∃ it ∈ [(("a" : String), (432000000 : ℤ)), ("b", 1728000000)], daysUntil it.2 0 ≤ 14) ∧
    (∃ txt, (("a" : String), txt) ∈
      buildContent (fun _ => "soon") 0 [("a", 432000000), ("b", 1728000000)]) ∧
    ((∃ txt, (("b" : String), txt) ∈
      buildContent (fun _ => "soon") 0 [("a", 432000000), ("b", 1728000000)]) ∧
      ¬ daysUntil 1728000000 0 ≤ 14) := by
  have d1 : daysUntil 432000000 0 = 5 := by
    norm_num [daysUntil, jsRound, DAY, HOUR, MIN]
  have d2 : daysUntil 1728000000 0 = 20 := by
    norm_num [daysUntil, jsRound, DAY, HOUR, MIN]
  have h := spec_c2 (fun _ => "soon") 0 [("a", 432000000), ("b", 1728000000)]
  refine ⟨h.1, ?_, ?_⟩
  · exact h.2.1 ("a", 432000000) (by simp) (by rw [d1]; norm_num)
  · exact h.2.2 ("b", 1728000000) (by simp) (by rw [d2]; norm_num) (by rw [d2]; norm_num)

/-- C7 as amended: `daysUntilExpiry` is the rounding of `(e - now) / 1 day`
with half-way cases rounded toward positive infinity (JavaScript
`Math.round`): it is the unique integer `d` with
`d - 1/2 ≤ (e - now)/day < d + 1/2`. -/
theorem spec_c7 (e now : ℤ) :
    ((daysUntil e now : ℚ) - 1/2 ≤ ((e : ℚ) - now) / (DAY : ℚ)) ∧
    (((e : ℚ) - now) / (DAY : ℚ) < (daysUntil e now : ℚ) + 1/2) := by
  have hq : ((e - now : ℤ) : ℚ) = (e : ℚ) - (now : ℚ) := by push_cast; ring
  constructor
  · have h := Int.floor_le (((e : ℚ) - now) / (DAY : ℚ) + 1/2)
    simp only [daysUntil, jsRound, hq]
    linarith
  · have h := Int.lt_floor_add_one (((e : ℚ) - now) / (DAY : ℚ) + 1/2)
    simp only [daysUntil, jsRound, hq]
    linarith

/-- Counterexample to C7 as stated: at a difference of minus one and a half
days (`e = 0`, `now = 129600000`), the code rounds to `-1`
(`Math.round(-1.5) = -1`), while both rounding modes allowed by the claim —
ties away from zero and ties to even — give `-2`. -/
theorem spec_c7_cex :
    ¬ (daysUntil 0 129600000 = specRoundAway (((0 : ℚ) - 129600000) / (DAY : ℚ)) ∨
       daysUntil 0 129600000 = specRoundEven (((0 : ℚ) - 129600000) / (DAY : ℚ))) := by
  have h1 : daysUntil 0 129600000 = -1 := by
    norm_num [daysUntil, jsRound, DAY, HOUR, MIN]
  have h2 : specRoundAway (((0 : ℚ) - 129600000) / (DAY : ℚ)) = -2 := by
    norm_num [specRoundAway, DAY, HOUR, MIN]
  have h3 : specRoundEven (((0 : ℚ) - 129600000) / (DAY : ℚ)) = -2 := by
    norm_num [specRoundEven, DAY, HOUR, MIN]
  rw [h1, h2, h3]
  norm_num

/-- C4 as amended: a probe whose handshake fails with exactly the
`certificate has expired` error returns the epoch sentinel `0` instead of
propagating an error; the sentinel classifies as `EXPIRED` for every
reference instant more than half a day (43200000 ms) after the epoch, and
contributes `true` to `needNotify` for every reference instant at or after
the epoch. -/
theorem spec_c4 (net : String → ℤ → NetResult) (host : String) (now : ℤ) :
    (tslConnect net host = Except.error "certificate has expired" →
      getExpireTime net host = Except.ok 0) ∧
    (43200000 < now → tierOf (daysUntil 0 now) = Tier.EXPIRED) ∧
    (0 ≤ now → daysUntil 0 now ≤ 14) := by
  have h86 : (0 : ℚ) < ((DAY : ℤ) : ℚ) := by norm_num [DAY, HOUR, MIN]
  have hday : ((DAY : ℤ) : ℚ) = 86400000 := by norm_num [DAY, HOUR, MIN]
  refine ⟨fun h => ?_, fun h => ?_, fun h => ?_⟩
  · simp [getExpireTime, h]
  · have hnow : (43200000 : ℚ) < (now : ℚ) := by exact_mod_cast h
    have hd : daysUntil 0 now < 0 := by
      rw [daysUntil_lt_iff]
      have hlt : ((0 : ℚ) - now) / ((DAY : ℤ) : ℚ) < -(1/2) := by
        rw [div_lt_iff₀ h86, hday]
        linarith
      push_cast
      linarith
    simp [tierOf, hd]
  · have hnow : (0 : ℚ) ≤ (now : ℚ) := by exact_mod_cast h
    rw [daysUntil_le_iff]
    have hle : ((0 : ℚ) - now) / ((DAY : ℤ) : ℚ) ≤ 0 :=
      div_nonpos_iff.mpr (Or.inr ⟨by linarith, le_of_lt h86⟩)
    push_cast
    linarith

/-- Witness for C4 at concrete inputs: a network whose handshake always
fails with `certificate has expired`, and the sentinel classified one day
after the epoch. -/
theorem spec_c4_witness :
    getExpireTime (fun _ _ => NetResult.err "certificate has expired") "h" = Except.ok 0 ∧
    tierOf (daysUntil 0 86400000) = Tier.EXPIRED ∧
    daysUntil 0 86400000 ≤ 14 := by
  have h := spec_c4 (fun _ _ => NetResult.err "certificate has expired") "h" 86400000
  exact ⟨h.1 (by decide), h.2.1 (by norm_num), h.2.2 (by norm_num)⟩

/-- Counterexample to C4 as stated: one millisecond after the epoch is
"after the epoch", yet the sentinel's day difference rounds to `0`
(`Math.round(-1/86400000) = 0`), so the sentinel is not classified
`EXPIRED` there. -/
theorem spec_c4_cex :
    (0 : ℤ) < 1 ∧ tierOf (daysUntil 0 1) ≠ Tier.EXPIRED := by
  have d : daysUntil 0 1 = 0 := by norm_num [daysUntil, jsRound, DAY, HOUR, MIN]
  rw [d]
  exact ⟨by norm_num, by decide⟩

/-- C6: If any host's probe fails with a non-sentinel failure, the whole run
rejects: no report is built and no email is sent, regardless of the other
hosts. -/
theorem spec_c6 (net : String → ℤ → NetResult) (fromNow : ℤ → String)
    (now : ℤ) (hosts : List String)
    (h : ∃ x ∈ hosts, ∃ m, getExpireTime net x = Except.error m) :
    ∃ m2, checkAll net fromNow hosts now = Except.error m2 := by
  obtain ⟨x, hx, m, hm⟩ := h
  obtain ⟨m2, hp⟩ := probeAll_error net m hosts x hx hm
  exact ⟨m2, by simp [checkAll, hp]⟩

/-- Witness for C6 at a concrete run: the first host string is malformed, the
second host's probe succeeds, and the whole run still rejects. -/
theorem spec_c6_witness :
    ∃ m2, checkAll (fun _ _ => NetResult.ok 0) (fun _ => "") ["a:b:c", "good"] 0 =
      Except.error m2 :=
  spec_c6 (fun _ _ => NetResult.ok 0) (fun _ => "") 0 ["a:b:c", "good"]
    ⟨"a:b:c", by simp, "invalid host: a:b:c", by decide⟩

/-- C5: The full set of probed results is sorted ascending by expiry instant
before any filtering; the reportable sequence keeps only the reportable
entries of the sorted list in order; for day-offsets `[100, -1, 10]` the
reportable sequence is the offset `-1` entry (expired) then the offset `10`
entry (relative phrase), in that order. -/
theorem spec_c5 (fromNow : ℤ → String) (now : ℤ) (items : List (String × ℤ)) :
    List.Sorted byExpiry (sortItems items) ∧
    List.Perm (sortItems items) items ∧
    buildContent fromNow now (sortItems items) =
      (sortItems items).filterMap (fun it => contentEntry fromNow now it.1 it.2) ∧
    buildContent (fun _ => "rel") 0
        (sortItems [("a", 100 * DAY), ("b", -DAY), ("c", 10 * DAY)]) =
      [("b", expiredText), ("c", "rel" ++ "过期")] := by
  refine ⟨List.sorted_insertionSort byExpiry items,
    List.perm_insertionSort byExpiry items,
    buildContent_eq_filterMap fromNow now (sortItems items), ?_⟩
  have hsort : sortItems [("a", 100 * DAY), ("b", -DAY), ("c", 10 * DAY)] =
      [("b", -DAY), ("c", 10 * DAY), ("a", 100 * DAY)] := by
    decide
  have d1 : daysUntil (-DAY) 0 = -1 := by
    norm_num [daysUntil, jsRound, DAY, HOUR, MIN]
  have d2 : daysUntil (10 * DAY) 0 = 10 := by
    norm_num [daysUntil, jsRound, DAY, HOUR, MIN]
  have d3 : daysUntil (100 * DAY) 0 = 100 := by
    norm_num [daysUntil, jsRound, DAY, HOUR, MIN]
  rw [hsort]
  simp [buildContent, contentEntry, d1, d2, d3]

/-- C8: Every sent email has subject `"[<reportableCount>🚨] SSL 证书到期检测"`
with the number of reportable entries, and its body is an HTML unordered
list with exactly one `<li>` per reportable entry, host name in bold followed
by a colon and the display text. -/
theorem spec_c8 (net : String → ℤ → NetResult) (fromNow : ℤ → String)
    (hosts : List String) (now : ℤ) (email : EmailMsg)
    (h : checkAll net fromNow hosts now = Except.ok (some email)) :
    ∃ items, probeAll net hosts = Except.ok items ∧
      email.subject =
        "[" ++ toString (buildContent fromNow now (sortItems items)).length ++
          "🚨] SSL 证书到期检测" ∧
      email.html =
        "<ul>" ++ String.join ((buildContent fromNow now (sortItems items)).map
          (fun item => "<li><strong>" ++ item.1 ++ "</strong>: " ++ item.2 ++ "</li>")) ++
          "</ul>" := by
  cases hp : probeAll net hosts with
  | error m => simp [checkAll, hp] at h
  | ok items =>
    refine ⟨items, rfl, ?_⟩
    simp only [checkAll, hp, Except.ok.injEq] at h
    rw [runItems] at h
    split at h
    · rw [Option.some.injEq] at h
      rw [← h]
      exact ⟨rfl, convertToHTMLList_join _⟩
    · exact absurd h (by simp)

/-- Witness for C8 at a concrete run: one host whose certificate expired one
day before `now`; the sent email has count 1 and a single list item. -/
theorem spec_c8_witness :
    ∃ items, probeAll (fun _ _ => NetResult.ok 0) ["h"] = Except.ok items ∧
      ("[1🚨] SSL 证书到期检测" : String) =
        "[" ++ toString (buildContent (fun _ => "") 86400000 (sortItems items)).length ++
          "🚨] SSL 证书到期检测" ∧
      ("<ul><li><strong>h</strong>: " ++ expiredText ++ "</li></ul>" : String) =
        "<ul>" ++ String.join ((buildContent (fun _ => "") 86400000 (sortItems items)).map
          (fun item => "<li><strong>" ++ item.1 ++ "</strong>: " ++ item.2 ++ "</li>")) ++
          "</ul>" := by
  have hrun : checkAll (fun _ _ => NetResult.ok 0) (fun _ => "") ["h"] 86400000 =
      Except.ok (some ⟨"[1🚨] SSL 证书到期检测",
        "<ul><li><strong>h</strong>: " ++ expiredText ++ "</li></ul>"⟩) := by
    have h1 : daysUntil 0 86400000 = -1 := by
      norm_num [daysUntil, jsRound, DAY, HOUR, MIN]
    simp [checkAll, probeAll, getExpireTime, tslConnect, hostPort, runItems, sortItems,
      List.insertionSort, buildContent, needNotifyOf, contentEntry, convertToHTMLList, h1]
    decide
  exact spec_c8 (fun _ _ => NetResult.ok 0) (fun _ => "") ["h"] 86400000
    ⟨"[1🚨] SSL 证书到期检测", "<ul><li><strong>h</strong>: " ++ expiredText ++ "</li></ul>"⟩
    hrun

/-- C9: At process start exactly one scheduling mode is selected: environment
flag `1` runs the pipeline once immediately; any other value installs the
recurring trigger `0 10 * * *` in timezone `Asia/Shanghai`, and that cron
expression fires exactly at minute 0 of hour 10 — once per day at 10:00 —
for every day of month, month and day of week. -/
theorem spec_c9 (runEnv : Option String) (t : WallTime) :
    main (some "1") = SchedMode.runNow ∧
    (runEnv ≠ some "1" → main runEnv = SchedMode.cron "0 10 * * *" "Asia/Shanghai") ∧
    (cronFires "0 10 * * *" t = true ↔ t.minute = 0 ∧ t.hour = 10) := by
  refine ⟨rfl, fun h => by simp [main, h], ?_⟩
  obtain ⟨mi, hh, dom, mon, dw⟩ := t
  have hsplit : splitOnChar ' ' "0 10 * * *".toList =
      [['0'], ['1', '0'], ['*'], ['*'], ['*']] := by decide
  rw [cronFires, hsplit]
  simp [cronFieldMatches, digitsNat, decDigit]
  exact ⟨fun h => ⟨h.1.symm, h.2.symm⟩, fun h => ⟨h.1.symm, h.2.symm⟩⟩

/-- Witness for C9 at concrete inputs: flag `1` runs now; an unset flag
installs the daily 10:00 Asia/Shanghai trigger, which fires at 10:00 on an
arbitrary date. -/
theorem spec_c9_witness :
    main (some "1") = SchedMode.runNow ∧
    main none = SchedMode.cron "0 10 * * *" "Asia/Shanghai" ∧
    cronFires "0 10 * * *" ⟨0, 10, 5, 3, 2⟩ = true := by
  have h := spec_c9 none ⟨0, 10, 5, 3, 2⟩
  exact ⟨h.1, h.2.1 (by decide), h.2.2.mpr ⟨rfl, rfl⟩⟩

/-- C3 as amended: splitting on `':'` yields one part more than the number of
`':'` occurrences; a raw host string with no `':'` parses to the default port
443; with exactly one `':'` (a two-part split) the parse fails iff JavaScript
`parseInt` of the port substring is `NaN` — `parseInt` accepts a leading
integer and ignores trailing characters, so the port substring need not be a
pure base-10 integer — and otherwise yields the hostname part with
`parseInt`'s value; with two or more `':'` the parse fails. -/
theorem spec_c3 (raw : String) :
    ((splitOnColon raw.toList).length = raw.toList.count ':' + 1) ∧
    (raw.toList.count ':' = 0 → hostPort raw = Except.ok (raw, 443)) ∧
    (∀ a b, splitOnColon raw.toList = [a, b] →
      (jsParseInt b = none →
        hostPort raw = Except.error ("invalid host: " ++ a.asString)) ∧
      (∀ p, jsParseInt b = some p →
        hostPort raw = Except.ok (a.asString, p))) ∧
    (2 ≤ raw.toList.count ':' → ∃ m, hostPort raw = Except.error m) := by
  have hlen : (splitOnColon raw.toList).length = raw.toList.count ':' + 1 :=
    splitOnChar_length ':' raw.toList
  refine ⟨hlen, fun h0 => ?_, fun a b hab => ?_, fun h2 => ?_⟩
  · have hnotmem : ':' ∉ raw.toList := List.count_eq_zero.mp h0
    have hcont : raw.toList.contains ':' = false := by
      simpa using hnotmem
    unfold hostPort
    rw [hcont]
    simp
  · have hcount : raw.toList.count ':' = 1 := by
      rw [hab] at hlen
      simpa using hlen.symm
    have hmem : ':' ∈ raw.toList := by
      by_contra hn
      rw [List.count_eq_zero.mpr hn] at hcount
      exact absurd hcount (by norm_num)
    have hcont : raw.toList.contains ':' = true := by simpa using hmem
    constructor
    · intro hnone
      unfold hostPort
      rw [hcont, hab]
      simp [hnone]
    · intro p hp
      unfold hostPort
      rw [hcont, hab]
      simp [hp]
  · have hmem : ':' ∈ raw.toList := by
      by_contra hn
      rw [List.count_eq_zero.mpr hn] at h2
      exact absurd h2 (by norm_num)
    have hcont : raw.toList.contains ':' = true := by simpa using hmem
    have hne : ¬ (splitOnColon raw.toList).length = 2 := by omega
    refine ⟨"invalid host: " ++ raw, ?_⟩
    unfold hostPort
    rw [hcont, if_pos rfl, if_neg hne]

/-- Witness for C3 at a concrete input: `example.com:8443` parses to hostname
`example.com` with port 8443. -/
theorem spec_c3_witness :
    hostPort "example.com:8443" = Except.ok ("example.com", 8443) :=
  ((spec_c3 "example.com:8443").2.2.1 "example.com".toList "8443".toList
    (by decide)).2 8443 (by decide)

/-- Counterexample to C3 as stated: `example.com:12x` contains exactly one
`':'` and its port substring `12x` does not parse as a base-10 integer, yet
the code accepts it — JavaScript `parseInt('12x')` is `12`, so the parse
succeeds with port 12 instead of failing with an invalid-host error. -/
theorem spec_c3_cex :
    "example.com:12x".toList.count ':' = 1 ∧
    isBase10Int "12x".toList = false ∧
    hostPort "example.com:12x" = Except.ok ("example.com", 12) :=
  ⟨by decide, by decide, by decide⟩

/-- C10: For the empty host list, a run completes successfully with an empty
reportable sequence, `needNotify` stays `false`, and no email is sent. -/
theorem spec_c10 (net : String → ℤ → NetResult) (fromNow : ℤ → String) (now : ℤ) :
    checkAll net fromNow [] now = Except.ok none ∧
    buildContent fromNow now [] = [] ∧
    needNotifyOf now [] = false :=
  ⟨rfl, rfl, rfl⟩

end SSLChecker
